import Mathlib

set_option maxRecDepth 100000
set_option maxHeartbeats 1000000

/-! Verification of the S.I.L.K. agent-mode orchestrator (src/agent.js).

The file shallowly embeds the three-phase pipeline `runAgentMode`, the
transport `fetchAPIBackground`, and the terminal-bubble DOM helpers.
External effects are modelled explicitly: a `localStorage` lookup table, a
network oracle indexed by the order in which requests are issued, a
scheduling bit recording which of the two parallel worker promises settles
first, and an application state carrying the chat, the status bubble and an
event trace of DOM mutations.  The ECMAScript builtins the source relies on
(`JSON.parse`, `String.prototype.replace` with a global pattern and empty
replacement, `String.prototype.trim`, `String(...)` coercion, property
access and truthiness) are modelled as executable Lean functions below. -/

namespace Silk

/-- JavaScript whitespace, as used by `String.prototype.trim`
(WhiteSpace and LineTerminator code points). -/
def jsWsChar (c : Char) : Bool :=
  c == ' ' || c == '\t' || c == '\n' || c == '\r' || c == '\x0b' || c == '\x0c' ||
  c == ' ' || c == '﻿' || c == ' ' ||
  (0x2000 ≤ c.toNat && c.toNat ≤ 0x200A) ||
  c == ' ' || c == ' ' || c == ' ' || c == ' ' || c == '　'

/-- Drop JS whitespace from the front of a character list. -/
def trimLeftL (l : List Char) : List Char := l.dropWhile jsWsChar

/-- Drop JS whitespace from the back of a character list. -/
def trimRightL (l : List Char) : List Char := (l.reverse.dropWhile jsWsChar).reverse

/-- Model of `String.prototype.trim`. -/
def jsTrim (s : String) : String := String.mk (trimRightL (trimLeftL s.data))

/-- Remove every non-overlapping occurrence of `pat` from `l`, scanning left
to right; models `str.replace(/pat/g, '')` for a literal pattern.  `fuel`
bounds the recursion; callers pass the length of the list. -/
def removeAllL (pat : List Char) : Nat → List Char → List Char
  | 0, l => l
  | _ + 1, [] => []
  | fuel + 1, c :: cs =>
    if !pat.isEmpty && pat.isPrefixOf (c :: cs) then
      removeAllL pat fuel (List.drop pat.length (c :: cs))
    else
      c :: removeAllL pat fuel cs

/-- Model of `s.replace(/pat/g, '')` for a literal pattern `pat`. -/
def jsRemoveAll (s pat : String) : String :=
  String.mk (removeAllL pat.data s.data.length s.data)

/-- Returns `true` iff `pat` occurs as a contiguous subsequence of `l`. -/
def containsSeq : List Char → List Char → Bool
  | pat, [] => pat.isEmpty
  | pat, c :: cs => pat.isPrefixOf (c :: cs) || containsSeq pat cs

/-! ### JavaScript values and `JSON.parse`

`Json` represents the values `JSON.parse` can produce.  Numbers keep their
source lexeme, which is all the pipeline ever inspects (truthiness and
string coercion). -/

inductive Json where
  | null
  | bool (b : Bool)
  | num (lexeme : String)
  | str (s : String)
  | arr (elems : List Json)
  | obj (fields : List (String × Json))

/-- The mantissa portion of a JSON number lexeme (everything before the
exponent marker). -/
def numMantissa (l : List Char) : List Char :=
  l.takeWhile (fun c => !(c == 'e' || c == 'E'))

/-- A JSON number lexeme denotes zero iff its mantissa has no nonzero digit. -/
def numIsZero (lx : String) : Bool :=
  (numMantissa lx.data).all (fun c => !(c.isDigit && c != '0'))

/-- JavaScript truthiness of a parsed JSON value. -/
def jsTruthy : Json → Bool
  | .null => false
  | .bool b => b
  | .num lx => !(numIsZero lx)
  | .str s => s != ""
  | .arr _ => true
  | .obj _ => true

/-- Truthiness of a possibly-`undefined` value (`none` models `undefined`). -/
def jsTruthyOpt : Option Json → Bool
  | none => false
  | some v => jsTruthy v

/-- JavaScript property access `v[k]`: `none` models `undefined`.  On an
object produced by `JSON.parse` a duplicated key keeps the last binding, so
the reversed field list is searched. -/
def jsGet : Json → String → Option Json
  | .obj fields, k => (fields.reverse.find? (fun f => f.1 == k)).map (fun f => f.2)
  | _, _ => none

/-- Numeric value of a decimal digit list. -/
def natOfDigits (l : List Char) : Nat :=
  l.foldl (fun n c => 10 * n + (c.toNat - 48)) 0

/-- Model of `Number.prototype.toString` (radix 10) on a JSON number lexeme:
the positional/exponential rendering of ECMAScript.  Mantissas longer than the
double-precision significand are kept verbatim rather than rounded; the
pipeline never reaches this function with such inputs. -/
def jsNumToString (lx : String) : String :=
  let cs := lx.data
  let neg : Bool := cs.head? == some '-'
  let cs := if neg then cs.drop 1 else cs
  let ipart := cs.takeWhile Char.isDigit
  let cs1 := cs.drop ipart.length
  let fpart := match cs1 with
    | '.' :: rest => rest.takeWhile Char.isDigit
    | _ => []
  let cs2 := match cs1 with
    | '.' :: rest => rest.drop fpart.length
    | _ => cs1
  let expv : Int := match cs2 with
    | 'e' :: rest | 'E' :: rest =>
      (match rest with
       | '-' :: ds => -(natOfDigits ds : Int)
       | '+' :: ds => (natOfDigits ds : Int)
       | ds => (natOfDigits ds : Int))
    | _ => 0
  let digits0 := ipart ++ fpart
  let lead := (digits0.takeWhile (fun c => c == '0')).length
  let digits1 := digits0.drop lead
  let pointPos : Int := (ipart.length : Int) + expv - lead
  let digits := (digits1.reverse.dropWhile (fun c => c == '0')).reverse
  if digits.isEmpty then "0" else
  let k : Int := (digits.length : Int)
  let n := pointPos
  let sign := if neg then "-" else ""
  let body :=
    if k ≤ n ∧ n ≤ 21 then
      String.mk digits ++ String.mk (List.replicate (n - k).toNat '0')
    else if 0 < n ∧ n < k ∧ n ≤ 21 then
      String.mk (digits.take n.toNat) ++ "." ++ String.mk (digits.drop n.toNat)
    else if -6 < n ∧ n ≤ 0 then
      "0." ++ String.mk (List.replicate (-n).toNat '0') ++ String.mk digits
    else
      let mant := match digits with
        | [d] => String.mk [d]
        | d :: ds => String.mk [d] ++ "." ++ String.mk ds
        | [] => "0"
      mant ++ "e" ++ (if n - 1 < 0 then "-" else "+") ++ toString (n - 1).natAbs
  sign ++ body

mutual

/-- Model of the `String(v)` coercion on a parsed JSON value. -/
def jsToString : Json → String
  | .null => "null"
  | .bool b => if b then "true" else "false"
  | .num lx => jsNumToString lx
  | .str s => s
  | .obj _ => "[object Object]"
  | .arr xs => String.intercalate "," (jsToStringElems xs)

/-- The `Array.prototype.join` step renders `null` elements as the empty string. -/
def jsToStringElems : List Json → List String
  | [] => []
  | x :: xs =>
    (match x with
     | .null => ""
     | v => jsToString v) :: jsToStringElems xs

end

/-- JSON insignificant whitespace (exactly the four characters
`JSON.parse` skips). -/
def jsonWsSkip (l : List Char) : List Char :=
  l.dropWhile (fun c => c == ' ' || c == '\t' || c == '\n' || c == '\r')

/-- Hexadecimal digit value, if any. -/
def hexVal (c : Char) : Option Nat :=
  if c.isDigit then some (c.toNat - 48)
  else if 'a' ≤ c ∧ c ≤ 'f' then some (c.toNat - 87)
  else if 'A' ≤ c ∧ c ≤ 'F' then some (c.toNat - 55)
  else none

/-- Parse the body of a JSON string (after the opening quote), returning the
decoded characters and the input following the closing quote.  Handles the
JSON escapes, rejects raw control characters, and combines surrogate pairs
written as two `\uXXXX` escapes. -/
def parseStringBody : Nat → List Char → Option (List Char × List Char)
  | 0, _ => none
  | _ + 1, [] => none
  | fuel + 1, c :: cs =>
    if c == '"' then some ([], cs)
    else if c == '\\' then
      match cs with
      | '"' :: r => (parseStringBody fuel r).map (fun p => ('"' :: p.1, p.2))
      | '\\' :: r => (parseStringBody fuel r).map (fun p => ('\\' :: p.1, p.2))
      | '/' :: r => (parseStringBody fuel r).map (fun p => ('/' :: p.1, p.2))
      | 'b' :: r => (parseStringBody fuel r).map (fun p => ('\x08' :: p.1, p.2))
      | 'f' :: r => (parseStringBody fuel r).map (fun p => ('\x0c' :: p.1, p.2))
      | 'n' :: r => (parseStringBody fuel r).map (fun p => ('\n' :: p.1, p.2))
      | 'r' :: r => (parseStringBody fuel r).map (fun p => ('\r' :: p.1, p.2))
      | 't' :: r => (parseStringBody fuel r).map (fun p => ('\t' :: p.1, p.2))
      | 'u' :: h1 :: h2 :: h3 :: h4 :: r =>
        match hexVal h1, hexVal h2, hexVal h3, hexVal h4 with
        | some a, some b, some c1, some d =>
          let code := ((a * 16 + b) * 16 + c1) * 16 + d
          if 0xD800 ≤ code ∧ code ≤ 0xDBFF then
            match r with
            | '\\' :: 'u' :: g1 :: g2 :: g3 :: g4 :: r2 =>
              match hexVal g1, hexVal g2, hexVal g3, hexVal g4 with
              | some a2, some b2, some c2, some d2 =>
                let lo := ((a2 * 16 + b2) * 16 + c2) * 16 + d2
                if 0xDC00 ≤ lo ∧ lo ≤ 0xDFFF then
                  (parseStringBody fuel r2).map (fun p =>
                    (Char.ofNat (0x10000 + (code - 0xD800) * 0x400 + (lo - 0xDC00)) :: p.1, p.2))
                else
                  (parseStringBody fuel r).map (fun p => (Char.ofNat code :: p.1, p.2))
              | _, _, _, _ =>
                (parseStringBody fuel r).map (fun p => (Char.ofNat code :: p.1, p.2))
            | _ => (parseStringBody fuel r).map (fun p => (Char.ofNat code :: p.1, p.2))
          else
            (parseStringBody fuel r).map (fun p => (Char.ofNat code :: p.1, p.2))
        | _, _, _, _ => none
      | _ => none
    else if c.toNat < 0x20 then none
    else (parseStringBody fuel cs).map (fun p => (c :: p.1, p.2))

/-- Parse a JSON number token at the head of the input, returning its lexeme
and the rest of the input. -/
def parseNum (cs0 : List Char) : Option (String × List Char) :=
  let negChars : List Char := if cs0.head? == some '-' then ['-'] else []
  let cs1 := if cs0.head? == some '-' then cs0.drop 1 else cs0
  match cs1 with
  | [] => none
  | c :: _ =>
    if !c.isDigit then none else
    let ints : List Char := if c == '0' then ['0'] else cs1.takeWhile Char.isDigit
    let cs2 := cs1.drop ints.length
    let fracRes : Option (List Char × List Char) :=
      match cs2 with
      | '.' :: r =>
        let fs := r.takeWhile Char.isDigit
        if fs.isEmpty then none else some ('.' :: fs, r.drop fs.length)
      | _ => some ([], cs2)
    match fracRes with
    | none => none
    | some (frac, cs3) =>
      let expRes : Option (List Char × List Char) :=
        match cs3 with
        | e :: r =>
          if e == 'e' || e == 'E' then
            let signChars : List Char :=
              match r with
              | '-' :: _ => ['-']
              | '+' :: _ => ['+']
              | _ => []
            let r2 := r.drop signChars.length
            let ds := r2.takeWhile Char.isDigit
            if ds.isEmpty then none
            else some (e :: (signChars ++ ds), r2.drop ds.length)
          else some ([], cs3)
        | [] => some ([], cs3)
      match expRes with
      | none => none
      | some (ex, cs4) => some (String.mk (negChars ++ ints ++ frac ++ ex), cs4)

mutual

/-- Parse one JSON value (leading whitespace allowed). -/
def parseVal : Nat → List Char → Option (Json × List Char)
  | 0, _ => none
  | fuel + 1, cs =>
    match jsonWsSkip cs with
    | 'n' :: 'u' :: 'l' :: 'l' :: r => some (.null, r)
    | 't' :: 'r' :: 'u' :: 'e' :: r => some (.bool true, r)
    | 'f' :: 'a' :: 'l' :: 's' :: 'e' :: r => some (.bool false, r)
    | '"' :: r => (parseStringBody fuel r).map (fun p => (.str (String.mk p.1), p.2))
    | '{' :: r =>
      (match jsonWsSkip r with
       | '}' :: r2 => some (.obj [], r2)
       | _ => (parseFields fuel r).map (fun p => (.obj p.1, p.2)))
    | '[' :: r =>
      (match jsonWsSkip r with
       | ']' :: r2 => some (.arr [], r2)
       | _ => (parseElems fuel r).map (fun p => (.arr p.1, p.2)))
    | cs2 => (parseNum cs2).map (fun p => (.num p.1, p.2))

/-- Parse the members of a JSON object (after the opening brace, at least
one member present). -/
def parseFields : Nat → List Char → Option (List (String × Json) × List Char)
  | 0, _ => none
  | fuel + 1, cs =>
    match jsonWsSkip cs with
    | '"' :: r =>
      match parseStringBody fuel r with
      | none => none
      | some (k, r2) =>
        match jsonWsSkip r2 with
        | ':' :: r3 =>
          match parseVal fuel r3 with
          | none => none
          | some (v, r4) =>
            match jsonWsSkip r4 with
            | ',' :: r5 => (parseFields fuel r5).map (fun p => ((String.mk k, v) :: p.1, p.2))
            | '}' :: r5 => some ([(String.mk k, v)], r5)
            | _ => none
        | _ => none
    | _ => none

/-- Parse the elements of a JSON array (after the opening bracket, at least
one element present). -/
def parseElems : Nat → List Char → Option (List Json × List Char)
  | 0, _ => none
  | fuel + 1, cs =>
    match parseVal fuel cs with
    | none => none
    | some (v, r) =>
      match jsonWsSkip r with
      | ',' :: r2 => (parseElems fuel r2).map (fun p => (v :: p.1, p.2))
      | ']' :: r2 => some ([v], r2)
      | _ => none

end

/-- Model of `JSON.parse`: `none` models a thrown `SyntaxError`. -/
def jsonParse (s : String) : Option Json :=
  match parseVal (s.data.length + 1) s.data with
  | some (v, rest) => if (jsonWsSkip rest).isEmpty then some v else none
  | none => none

/-! ### The request payload built by `fetchAPIBackground` -/

/-- One entry of a `parts` array: a text part or an inline-image part. -/
inductive Part where
  | text (s : String)
  | inlineData (mimeType : String) (data : String)
deriving DecidableEq

/-- One entry of the `contents` array of the request body. -/
structure Content where
  role : String
  parts : List Part
deriving DecidableEq

/-- One fixed moderation entry of `safetySettings`. -/
structure SafetySetting where
  category : String
  threshold : String
deriving DecidableEq

/-- The fixed `generationConfig` of the request body (the temperature is
kept as its JSON literal). -/
structure GenerationConfig where
  temperature : String
  maxOutputTokens : Nat
deriving DecidableEq

/-- An outbound `generateContent` request: the interpolated URL pieces
(model id and API key) together with the JSON body. -/
structure Request where
  model : String
  apiKey : String
  contents : List Content
  safetySettings : List SafetySetting
  generationConfig : GenerationConfig
deriving DecidableEq

/-- The endpoint URL interpolated in `fetchAPIBackground`. -/
def Request.url (r : Request) : String :=
  "https://generativelanguage.googleapis.com/v1beta/models/" ++ r.model ++
    ":generateContent?key=" ++ r.apiKey

/-- The four fixed safety settings attached to every agent call. -/
def silkSafetySettings : List SafetySetting :=
  [⟨"HARM_CATEGORY_HARASSMENT", "BLOCK_MEDIUM_AND_ABOVE"⟩,
   ⟨"HARM_CATEGORY_HATE_SPEECH", "BLOCK_MEDIUM_AND_ABOVE"⟩,
   ⟨"HARM_CATEGORY_SEXUALLY_EXPLICIT", "BLOCK_MEDIUM_AND_ABOVE"⟩,
   ⟨"HARM_CATEGORY_DANGEROUS_CONTENT", "BLOCK_MEDIUM_AND_ABOVE"⟩]

/-- The fixed generation configuration of agent calls. -/
def silkGenerationConfig : GenerationConfig := ⟨"0.9", 8192⟩

/-! ### The network and storage environment -/

/-- The parsed JSON body of an HTTP response, restricted to the two shapes
the transport consumes: `error.message` on failures and
`candidates[0].content.parts[0].text` on successes (`none` models an
absent field). -/
structure RespBody where
  errMessage : Option String
  text : Option String
deriving DecidableEq

/-- Decidable equality for the `res.json()` result. -/
instance : DecidableEq (Except String RespBody) := fun a b =>
  match a, b with
  | .error x, .error y =>
    if h : x = y then .isTrue (by rw [h]) else .isFalse (by simp [h])
  | .ok x, .ok y =>
    if h : x = y then .isTrue (by rw [h]) else .isFalse (by simp [h])
  | .error _, .ok _ => .isFalse (by simp)
  | .ok _, .error _ => .isFalse (by simp)

/-- Outcome of one `fetch`: either the promise rejects (network failure),
or a response arrives with a status and a body; `body = .error m` models
`res.json()` rejecting with message `m` (the body is not valid JSON). -/
inductive NetOutcome where
  | netFail (msg : String)
  | resp (ok : Bool) (status : Nat) (body : Except String RespBody)
deriving DecidableEq

/-- A pending image attachment (`state.pendingImage`). -/
structure PendingImage where
  base64 : String
  dataUrl : String
deriving DecidableEq

/-- The external world of one run: the `localStorage` table, the network
reply to the `i`-th request issued during the run, the relative settling
order of the two parallel worker promises (`schedule = true` iff worker A
settles first), and the clock. -/
structure Env where
  store : String → Option String
  net : Nat → NetOutcome
  schedule : Bool
  now : Nat

/-- Modelled from the spec: `LS.get(key, dflt)` reads the persisted
key-value store, falling back to the default when the key is absent
(the `LS` helper lives in index.html, outside src/). -/
def LS_get (env : Env) (key dflt : String) : String :=
  (env.store key).getD dflt

/-- The regex match `^data:(image\/[^;]+);base64,(.+)` on a data URL:
returns the captured mime type and base64 payload.  `.` does not match a
line terminator, so the payload capture stops at the first one. -/
def isLineTerm (c : Char) : Bool :=
  c == '\n' || c == '\r' || c == ' ' || c == ' '

/-- See `isLineTerm`; `none` models a failed match. -/
def dataUrlMatch (s : String) : Option (String × String) :=
  if ("data:image/".data).isPrefixOf s.data then
    let rest := s.data.drop 11
    let sub := rest.takeWhile (fun c => c != ';')
    if sub.isEmpty then none
    else
      let rest2 := rest.drop sub.length
      if (";base64,".data).isPrefixOf rest2 then
        let payload := rest2.drop 8
        let dat := payload.takeWhile (fun c => !(isLineTerm c))
        if dat.isEmpty then none
        else some ("image/" ++ String.mk sub, String.mk dat)
      else none
  else none

/-! ### The transport: `fetchAPIBackground` -/

/-- Model of `String(newUserText || '')`, where `newUserText` is a JS value
and `none` models `undefined`. -/
def safeTextOf (newUserText : Option Json) : String :=
  match newUserText with
  | none => ""
  | some v => if jsTruthy v then jsToString v else ""

/-- The `parts` array of the current turn: the coerced text part, plus the
inline-image part when a truthy image string is given (decoded from a data
URL when it matches, defaulting to a bare jpeg payload otherwise). -/
def mkParts (newUserText : Option Json) (imageBase64 : Option String) : List Part :=
  let baseParts := [Part.text (safeTextOf newUserText)]
  match imageBase64 with
  | some img =>
    if img ≠ "" then
      match dataUrlMatch img with
      | some (m, d) => baseParts ++ [Part.inlineData m d]
      | none => baseParts ++ [Part.inlineData "image/jpeg" img]
    else baseParts
  | none => baseParts

/-- The synthetic two-turn persona exchange prepended when a system prompt
is supplied. -/
def personaOf (systemPrompt : String) : List Content :=
  if systemPrompt ≠ "" then
    [⟨"user", [Part.text ("[System Instructions] " ++ systemPrompt)]⟩,
     ⟨"model", [Part.text "Understood."]⟩]
  else []

/-- The request body assembled by `fetchAPIBackground` before the `fetch`:
persona exchange, remapped history, and the parts of the current turn. -/
def mkRequest (env : Env) (history : List (String × String)) (newUserText : Option Json)
    (imageBase64 : Option String) (systemPrompt : String) (modelOverride : String) : Request :=
  let model := if modelOverride = "" then "gemma-3-27b-it" else modelOverride
  let formattedHistory : List Content := history.map (fun m =>
    ⟨if m.1 = "assistant" then "model" else "user", [Part.text m.2]⟩)
  { model := model
    apiKey := LS_get env "aura:apikey" ""
    contents := personaOf systemPrompt ++ formattedHistory ++
      [⟨"user", mkParts newUserText imageBase64⟩]
    safetySettings := silkSafetySettings
    generationConfig := silkGenerationConfig }

/-- The HTTP-status fallback error message. -/
def httpFallback (status : Nat) : String := "HTTP " ++ toString status

/-- Result extraction from one network outcome, mirroring the tail of
`fetchAPIBackground`: a non-ok response throws the vendor `error.message`
when present and nonempty (the attached catch swallows body-parse
failures, yielding an object with no message), otherwise the HTTP status; an ok response returns
`data?.candidates?.[0]?.content?.parts?.[0]?.text || ''`, and throws only
if its body fails to parse as JSON. -/
def outcomeRes : NetOutcome → Except String String
  | .netFail m => .error m
  | .resp ok status body =>
    if ok then
      match body with
      | .ok b => .ok (b.text.getD "")
      | .error m => .error m
    else
      .error (match body with
        | .ok b =>
          match b.errMessage with
          | some m => if m ≠ "" then m else httpFallback status
          | none => httpFallback status
        | .error _ => httpFallback status)

/-- The error message thrown when no API key is stored. -/
def noApiKeyMsg : String := "No API key saved."

/-- The transport: fails fast when no API key is stored (issuing nothing),
otherwise appends the assembled request to the issued-request log and
interprets the outcome the network gives it.  Returns the reply text or the
thrown error message, together with the updated log. -/
def fetchAPIBackground (env : Env) (issued : List Request) (history : List (String × String))
    (newUserText : Option Json) (imageBase64 : Option String) (systemPrompt : String)
    (modelOverride : String) : Except String String × List Request :=
  let apiKey := LS_get env "aura:apikey" ""
  if apiKey = "" then (.error noApiKeyMsg, issued)
  else
    let req := mkRequest env history newUserText imageBase64 systemPrompt modelOverride
    (outcomeRes (env.net issued.length), issued ++ [req])

/-! ### Application state and DOM helpers -/

/-- A chat message: role, content and timestamp, plus the optional image fields
attached to the triggering user turn). -/
structure Msg where
  role : String
  content : String
  ts : Nat
  imageBase64 : Option String := none
  imageDataUrl : Option String := none
deriving DecidableEq

/-- The terminal status bubble: its current text and whether the error
colour has been applied. -/
structure Terminal where
  text : String
  isError : Bool
deriving DecidableEq

/-- Observable DOM mutations, in order of occurrence. -/
inductive Ev where
  | append (m : Msg)
  | createTerm
  | updTerm (text : String) (isErr : Bool)
  | removeTerm
  | toastEv (msg kind : String)
deriving DecidableEq

/-- The mutable browser state touched by the run: the messages of the
active chat, the pending image, the submit-control and streaming flags, the
terminal bubble, the shown toasts, and the event trace. -/
structure AppState where
  chat : List Msg
  pendingImage : Option PendingImage
  sendBtnDisabled : Bool
  isStreaming : Bool
  terminal : Option Terminal
  toasts : List (String × String)
  events : List Ev
deriving DecidableEq

/-- Modelled from the spec: `appendMessage(turn)` (index.html, outside
src/) appends the turn to the active chat and renders it. -/
def appendMessage (st : AppState) (m : Msg) : AppState :=
  { st with chat := st.chat ++ [m], events := st.events ++ [.append m] }

/-- Model of `createTerminalBubble()`: creates the status bubble showing
"> Initializing...". -/
def createTerminalBubble (st : AppState) : AppState :=
  { st with terminal := some ⟨"> Initializing...", false⟩, events := st.events ++ [.createTerm] }

/-- Model of `updateTerminal(id, text, isError)`: a no-op when the bubble is gone;
otherwise replaces its text, and switches to the error colour when
`isError` (the colour is never reset). -/
def updateTerminal (st : AppState) (text : String) (isErr : Bool) : AppState :=
  match st.terminal with
  | none => st
  | some t =>
    { st with terminal := some ⟨text, t.isError || isErr⟩,
              events := st.events ++ [.updTerm text isErr] }

/-- Model of `removeTerminal(id)`: removes the bubble if present. -/
def removeTerminal (st : AppState) : AppState :=
  match st.terminal with
  | none => st
  | some _ => { st with terminal := none, events := st.events ++ [.removeTerm] }

/-- Modelled from the spec: `toast(message, kind)` (index.html, outside
src/) shows a user-visible notification. -/
def toast (st : AppState) (msg kind : String) : AppState :=
  { st with toasts := st.toasts ++ [(msg, kind)], events := st.events ++ [.toastEv msg kind] }

/-! ### The agent pipeline: `runAgentMode` -/

/-- The orchestrator system prompt. -/
def orchestratorPrompt : String :=
  "You are the Orchestrator. The user has submitted a complex request. Break this request into two distinct tasks for two worker agents. **Crucial Contract:** If the task involves coding, you MUST explicitly define shared CSS classes, HTML IDs, and JavaScript variable names so the workers are perfectly synced. **Output Format:** You must output STRICTLY a valid JSON object with exactly two keys: \"taskA\" and \"taskB\". Do not include markdown formatting or any other text."

/-- The worker system prompt. -/
def workerSystemPrompt : String :=
  "You are a specialized worker node. Execute the following task perfectly. Adhere strictly to any variable names or IDs provided."

/-- The synthesizer system prompt. -/
def synthesizerPrompt : String :=
  "You are the final compiler and Senior Code Reviewer. You have received components from two parallel workers. Stitch them into a single, flawless output for the user. **Crucially:** check for programmatic mismatches. Ensure all CSS classes, HTML IDs, and variables match perfectly. Fix any broken logic. Output the final, polished response directly to the user."

/-- Error message thrown when the orchestrator reply fails to parse. -/
def planParseFailMsg : String := "Orchestrator failed to generate a valid plan."

/-- Error message thrown when the parsed plan lacks a truthy task field. -/
def planMissingMsg : String := "Orchestrator response missing taskA or taskB."

/-- The code-fence stripping and trim applied to the raw orchestrator
reply before `JSON.parse`. -/
def cleanPlanJson (raw : String) : String :=
  jsTrim (jsRemoveAll (jsRemoveAll raw "```json") "```")

/-- The plan validation `!(!tasks || !tasks.taskA || !tasks.taskB)`. -/
def planShapeOk (tasks : Json) : Bool :=
  jsTruthy tasks && jsTruthyOpt (jsGet tasks "taskA") && jsTruthyOpt (jsGet tasks "taskB")

/-- The synthesis payload: the template literal combining both worker
outputs under labelled section delimiters, then `.trim()`. -/
def combineWorker (resultA resultB : String) : String :=
  jsTrim ("\n--- WORKER A OUTPUT ---\n" ++ resultA ++ "\n\n--- WORKER B OUTPUT ---\n" ++
    resultB ++ "\n    ")

/-- Model of `Promise.all` over the two worker calls: both fulfil, or the rejection
that settles first wins (`schedule = true` iff worker A settles first;
only when both reject does the order matter). -/
def promiseAll2 (schedule : Bool) :
    Except String String → Except String String → Except String (String × String)
  | .ok a, .ok b => .ok (a, b)
  | .error e, .ok _ => .error e
  | .ok _, .error e => .error e
  | .error ea, .error eb => .error (if schedule then ea else eb)

/-- The user turn appended at the start of a run, with the pending image
attached when present. -/
def mkUserMsg (env : Env) (st : AppState) (ut : String) : Msg :=
  match st.pendingImage with
  | some pi =>
    { role := "user", content := ut, ts := env.now,
      imageBase64 := some pi.base64, imageDataUrl := some pi.dataUrl }
  | none => { role := "user", content := ut, ts := env.now }

/-- Evaluation of `userMsg.imageBase64 || null`. -/
def imgOrNull (m : Msg) : Option String :=
  match m.imageBase64 with
  | some b => if b ≠ "" then some b else none
  | none => none

/-- The UI setup before the `try` block: clear the pending image, append
the user turn, disable the submit control, raise the streaming flag, and
create and initialize the terminal bubble. -/
def setupState (env : Env) (st : AppState) (ut : String) : AppState :=
  let userMsg := mkUserMsg env st ut
  let st1 := match st.pendingImage with
    | some _ => { st with pendingImage := none }
    | none => st
  let st2 := appendMessage st1 userMsg
  let st3 := { st2 with sendBtnDisabled := true, isStreaming := true }
  let st4 := createTerminalBubble st3
  updateTerminal st4 "> Initializing S.I.L.K. Agent Mode..." false

/-- The body of the `try` block: planner call, fence-strip and parse,
shape check, both worker calls (both requests are issued before either
outcome is inspected, as `Promise.all` evaluates its array first),
synthesis call, terminal teardown and final append.  Returns the state,
the issued-request log, and the thrown error message if any. -/
def agentBody (env : Env) (st : AppState) (history : List (String × String)) (ut : String)
    (img : Option String) : AppState × List Request × Option String :=
  let stA := updateTerminal st "> Orchestrator analyzing request..." false
  match fetchAPIBackground env [] history (some (Json.str ut)) img orchestratorPrompt
      "gemma-3-27b-it" with
  | (.error e, iss) => (stA, iss, some e)
  | (.ok orchResp, iss) =>
    match jsonParse (cleanPlanJson orchResp) with
    | none => (stA, iss, some planParseFailMsg)
    | some tasks =>
      if planShapeOk tasks then
        let stD := updateTerminal stA
          "> Orchestrator generated tasks. Dispatching to parallel workers..." false
        match fetchAPIBackground env iss [] (jsGet tasks "taskA") none workerSystemPrompt
            "gemma-3-27b-it" with
        | (ra, iss1) =>
          match fetchAPIBackground env iss1 [] (jsGet tasks "taskB") none workerSystemPrompt
              "gemma-3-27b-it" with
          | (rb, iss2) =>
            match promiseAll2 env.schedule ra rb with
            | .error e => (stD, iss2, some e)
            | .ok (resultA, resultB) =>
              let stS := updateTerminal stD
                "> Workers A and B have completed execution. Synthesizing final output..." false
              let combinedInput := combineWorker resultA resultB
              match fetchAPIBackground env iss2 history (some (Json.str combinedInput)) none
                  synthesizerPrompt "gemma-3-27b-it" with
              | (.error e, iss3) => (stS, iss3, some e)
              | (.ok finalResponse, iss3) =>
                let stF := appendMessage (removeTerminal stS)
                  { role := "assistant", content := finalResponse, ts := env.now }
                (stF, iss3, none)
      else (stA, iss, some planMissingMsg)

/-- The result of one run: the final browser state, the log of issued
network requests in order, and the error caught by the top-level handler
(`none` on success). -/
structure RunResult where
  state : AppState
  issued : List Request
  caught : Option String
deriving DecidableEq

/-- The `finally` block: re-enable the submit control and clear the
streaming flag. -/
def finalCleanup (st : AppState) : AppState :=
  { st with isStreaming := false, sendBtnDisabled := false }

/-- The `catch` block: render the error on the terminal bubble in the
error colour and show a toast (the bubble is left up). -/
def catchHandler (st : AppState) (e : String) : AppState :=
  toast (updateTerminal st ("> Error: " ++ e) true) ("Agent Mode Error: " ++ e) "error"

/-- The agent-mode entry point `runAgentMode(userText)`: bail out on a
falsy argument, set up the UI, compute the history (all chat messages
but the just-appended user turn), run the pipeline body, and apply the
`catch` and `finally` handlers. -/
def runAgentMode (env : Env) (st : AppState) (userText : String) : RunResult :=
  if userText = "" then ⟨st, [], none⟩
  else
    let st1 := setupState env st userText
    let history := st1.chat.dropLast.map (fun m => (m.role, m.content))
    let userMsg := mkUserMsg env st userText
    match agentBody env st1 history userText (imgOrNull userMsg) with
    | (st2, iss, some e) => ⟨finalCleanup (catchHandler st2 e), iss, some e⟩
    | (st2, iss, none) => ⟨finalCleanup st2, iss, none⟩

/-! ### Named intermediate states and requests, and one equation per
pipeline branch -/

/-- The state right after the "analyzing" status line. -/
def stAnalyzeOf (env : Env) (st : AppState) (ut : String) : AppState :=
  updateTerminal (setupState env st ut) "> Orchestrator analyzing request..." false

/-- The state right after the "dispatching" status line. -/
def stDispatchOf (env : Env) (st : AppState) (ut : String) : AppState :=
  updateTerminal (stAnalyzeOf env st ut)
    "> Orchestrator generated tasks. Dispatching to parallel workers..." false

/-- The state right after the "synthesizing" status line. -/
def stSynthOf (env : Env) (st : AppState) (ut : String) : AppState :=
  updateTerminal (stDispatchOf env st ut)
    "> Workers A and B have completed execution. Synthesizing final output..." false

/-- The history argument computed inside the run. -/
def histOf (env : Env) (st : AppState) (ut : String) : List (String × String) :=
  (setupState env st ut).chat.dropLast.map (fun m => (m.role, m.content))

/-- The planner request. -/
def planReqOf (env : Env) (st : AppState) (ut : String) : Request :=
  mkRequest env (histOf env st ut) (some (Json.str ut)) (imgOrNull (mkUserMsg env st ut))
    orchestratorPrompt "gemma-3-27b-it"

/-- The worker-A request for plan `t`. -/
def workerReqA (env : Env) (t : Json) : Request :=
  mkRequest env [] (jsGet t "taskA") none workerSystemPrompt "gemma-3-27b-it"

/-- The worker-B request for plan `t`. -/
def workerReqB (env : Env) (t : Json) : Request :=
  mkRequest env [] (jsGet t "taskB") none workerSystemPrompt "gemma-3-27b-it"

/-- The synthesis request for worker outputs `rA`, `rB`. -/
def synthReqOf (env : Env) (st : AppState) (ut : String) (rA rB : String) : Request :=
  mkRequest env (histOf env st ut) (some (Json.str (combineWorker rA rB))) none
    synthesizerPrompt "gemma-3-27b-it"

theorem fetch_eq_noKey (env : Env) (hk : LS_get env "aura:apikey" "" = "")
    (iss : List Request) (hist : List (String × String)) (nut : Option Json)
    (img : Option String) (sp mo : String) :
    fetchAPIBackground env iss hist nut img sp mo = (.error noApiKeyMsg, iss) := by
  simp [fetchAPIBackground, hk]

theorem fetch_eq_key (env : Env) (hk : LS_get env "aura:apikey" "" ≠ "")
    (iss : List Request) (hist : List (String × String)) (nut : Option Json)
    (img : Option String) (sp mo : String) :
    fetchAPIBackground env iss hist nut img sp mo =
      (outcomeRes (env.net iss.length), iss ++ [mkRequest env hist nut img sp mo]) := by
  simp [fetchAPIBackground, hk]

theorem run_eq_noKey (env : Env) (st : AppState) (ut : String) (hut : ut ≠ "")
    (hk : LS_get env "aura:apikey" "" = "") :
    runAgentMode env st ut =
      ⟨finalCleanup (catchHandler (stAnalyzeOf env st ut) noApiKeyMsg), [], some noApiKeyMsg⟩ := by
  simp only [runAgentMode, if_neg hut, agentBody, fetch_eq_noKey env hk, stAnalyzeOf, histOf]

theorem run_eq_planFail (env : Env) (st : AppState) (ut : String) (hut : ut ≠ "")
    (hk : LS_get env "aura:apikey" "" ≠ "") (e : String)
    (h0 : outcomeRes (env.net 0) = .error e) :
    runAgentMode env st ut =
      ⟨finalCleanup (catchHandler (stAnalyzeOf env st ut) e), [planReqOf env st ut], some e⟩ := by
  simp only [runAgentMode, if_neg hut, agentBody, fetch_eq_key env hk, List.length_nil, h0,
    List.nil_append, stAnalyzeOf, histOf, planReqOf]

theorem run_eq_parseFail (env : Env) (st : AppState) (ut : String) (hut : ut ≠ "")
    (hk : LS_get env "aura:apikey" "" ≠ "") (r : String)
    (h0 : outcomeRes (env.net 0) = .ok r) (hp : jsonParse (cleanPlanJson r) = none) :
    runAgentMode env st ut =
      ⟨finalCleanup (catchHandler (stAnalyzeOf env st ut) planParseFailMsg),
        [planReqOf env st ut], some planParseFailMsg⟩ := by
  simp only [runAgentMode, if_neg hut, agentBody, fetch_eq_key env hk, List.length_nil, h0, hp,
    List.nil_append, stAnalyzeOf, histOf, planReqOf]

theorem run_eq_invalid (env : Env) (st : AppState) (ut : String) (hut : ut ≠ "")
    (hk : LS_get env "aura:apikey" "" ≠ "") (r : String) (t : Json)
    (h0 : outcomeRes (env.net 0) = .ok r) (hp : jsonParse (cleanPlanJson r) = some t)
    (hv : planShapeOk t = false) :
    runAgentMode env st ut =
      ⟨finalCleanup (catchHandler (stAnalyzeOf env st ut) planMissingMsg),
        [planReqOf env st ut], some planMissingMsg⟩ := by
  simp only [runAgentMode, if_neg hut, agentBody, fetch_eq_key env hk, List.length_nil, h0, hp,
    hv, List.nil_append, stAnalyzeOf, histOf, planReqOf, Bool.false_eq_true, if_false]

theorem run_eq_workerFail (env : Env) (st : AppState) (ut : String) (hut : ut ≠ "")
    (hk : LS_get env "aura:apikey" "" ≠ "") (r : String) (t : Json)
    (h0 : outcomeRes (env.net 0) = .ok r) (hp : jsonParse (cleanPlanJson r) = some t)
    (hv : planShapeOk t = true) (e : String)
    (hw : promiseAll2 env.schedule (outcomeRes (env.net 1)) (outcomeRes (env.net 2)) = .error e) :
    runAgentMode env st ut =
      ⟨finalCleanup (catchHandler (stDispatchOf env st ut) e),
        [planReqOf env st ut, workerReqA env t, workerReqB env t], some e⟩ := by
  simp only [runAgentMode, if_neg hut, agentBody, fetch_eq_key env hk, List.length_nil, h0, hp,
    hv, if_true, List.nil_append, List.length_cons, List.length_nil, List.singleton_append,
    List.cons_append, List.nil_append, hw, stAnalyzeOf, stDispatchOf, histOf, planReqOf,
    workerReqA, workerReqB]

theorem run_eq_synthFail (env : Env) (st : AppState) (ut : String) (hut : ut ≠ "")
    (hk : LS_get env "aura:apikey" "" ≠ "") (r : String) (t : Json)
    (h0 : outcomeRes (env.net 0) = .ok r) (hp : jsonParse (cleanPlanJson r) = some t)
    (hv : planShapeOk t = true) (rA rB : String)
    (hw : promiseAll2 env.schedule (outcomeRes (env.net 1)) (outcomeRes (env.net 2)) =
      .ok (rA, rB)) (e : String) (h3 : outcomeRes (env.net 3) = .error e) :
    runAgentMode env st ut =
      ⟨finalCleanup (catchHandler (stSynthOf env st ut) e),
        [planReqOf env st ut, workerReqA env t, workerReqB env t,
          synthReqOf env st ut rA rB], some e⟩ := by
  simp only [runAgentMode, if_neg hut, agentBody, fetch_eq_key env hk, List.length_nil, h0, hp,
    hv, if_true, List.nil_append, List.length_cons, List.length_nil, List.singleton_append,
    List.cons_append, hw, h3, stAnalyzeOf, stDispatchOf, stSynthOf, histOf, planReqOf,
    workerReqA, workerReqB, synthReqOf]

theorem run_eq_success (env : Env) (st : AppState) (ut : String) (hut : ut ≠ "")
    (hk : LS_get env "aura:apikey" "" ≠ "") (r : String) (t : Json)
    (h0 : outcomeRes (env.net 0) = .ok r) (hp : jsonParse (cleanPlanJson r) = some t)
    (hv : planShapeOk t = true) (rA rB : String)
    (hw : promiseAll2 env.schedule (outcomeRes (env.net 1)) (outcomeRes (env.net 2)) =
      .ok (rA, rB)) (fin : String) (h3 : outcomeRes (env.net 3) = .ok fin) :
    runAgentMode env st ut =
      ⟨finalCleanup (appendMessage (removeTerminal (stSynthOf env st ut))
          { role := "assistant", content := fin, ts := env.now }),
        [planReqOf env st ut, workerReqA env t, workerReqB env t,
          synthReqOf env st ut rA rB], none⟩ := by
  simp only [runAgentMode, if_neg hut, agentBody, fetch_eq_key env hk, List.length_nil, h0, hp,
    hv, if_true, List.nil_append, List.length_cons, List.length_nil, List.singleton_append,
    List.cons_append, hw, h3, stAnalyzeOf, stDispatchOf, stSynthOf, histOf, planReqOf,
    workerReqA, workerReqB, synthReqOf]

/-! ### Observable fields of the intermediate states -/

theorem updateTerminal_of_some (st : AppState) (t : Terminal) (h : st.terminal = some t)
    (text : String) (b : Bool) :
    updateTerminal st text b =
      { st with terminal := some ⟨text, t.isError || b⟩,
                events := st.events ++ [.updTerm text b] } := by
  simp [updateTerminal, h]

theorem removeTerminal_of_some (st : AppState) (t : Terminal) (h : st.terminal = some t) :
    removeTerminal st = { st with terminal := none, events := st.events ++ [.removeTerm] } := by
  simp [removeTerminal, h]

theorem stAnalyzeOf_fields (env : Env) (st : AppState) (ut : String) :
    (stAnalyzeOf env st ut).chat = st.chat ++ [mkUserMsg env st ut] ∧
    (stAnalyzeOf env st ut).terminal = some ⟨"> Orchestrator analyzing request...", false⟩ ∧
    (stAnalyzeOf env st ut).toasts = st.toasts ∧
    (stAnalyzeOf env st ut).events = st.events ++
      [.append (mkUserMsg env st ut), .createTerm,
       .updTerm "> Initializing S.I.L.K. Agent Mode..." false,
       .updTerm "> Orchestrator analyzing request..." false] := by
  cases hpi : st.pendingImage <;>
    simp [stAnalyzeOf, setupState, appendMessage, createTerminalBubble, updateTerminal,
      mkUserMsg, hpi]

theorem stDispatchOf_fields (env : Env) (st : AppState) (ut : String) :
    (stDispatchOf env st ut).chat = st.chat ++ [mkUserMsg env st ut] ∧
    (stDispatchOf env st ut).terminal =
      some ⟨"> Orchestrator generated tasks. Dispatching to parallel workers...", false⟩ ∧
    (stDispatchOf env st ut).toasts = st.toasts ∧
    (stDispatchOf env st ut).events = st.events ++
      [.append (mkUserMsg env st ut), .createTerm,
       .updTerm "> Initializing S.I.L.K. Agent Mode..." false,
       .updTerm "> Orchestrator analyzing request..." false,
       .updTerm "> Orchestrator generated tasks. Dispatching to parallel workers..." false] := by
  obtain ⟨h1, h2, h3, h4⟩ := stAnalyzeOf_fields env st ut
  rw [stDispatchOf, updateTerminal_of_some _ _ h2]
  simp [h1, h3, h4]

theorem stSynthOf_fields (env : Env) (st : AppState) (ut : String) :
    (stSynthOf env st ut).chat = st.chat ++ [mkUserMsg env st ut] ∧
    (stSynthOf env st ut).terminal =
      some ⟨"> Workers A and B have completed execution. Synthesizing final output...", false⟩ ∧
    (stSynthOf env st ut).toasts = st.toasts ∧
    (stSynthOf env st ut).events = st.events ++
      [.append (mkUserMsg env st ut), .createTerm,
       .updTerm "> Initializing S.I.L.K. Agent Mode..." false,
       .updTerm "> Orchestrator analyzing request..." false,
       .updTerm "> Orchestrator generated tasks. Dispatching to parallel workers..." false,
       .updTerm "> Workers A and B have completed execution. Synthesizing final output..."
         false] := by
  obtain ⟨h1, h2, h3, h4⟩ := stDispatchOf_fields env st ut
  rw [stSynthOf, updateTerminal_of_some _ _ h2]
  simp [h1, h3, h4]

/-- Observables of the final state of a failed run, given the mid-run state the
failure was caught in. -/
theorem failShape (env : Env) (st : AppState) (ut : String) (X : AppState) (e tx : String)
    (hc : X.chat = st.chat ++ [mkUserMsg env st ut])
    (hterm : X.terminal = some ⟨tx, false⟩)
    (hto : X.toasts = st.toasts) :
    (finalCleanup (catchHandler X e)).isStreaming = false ∧
    (finalCleanup (catchHandler X e)).sendBtnDisabled = false ∧
    (finalCleanup (catchHandler X e)).chat = st.chat ++ [mkUserMsg env st ut] ∧
    (finalCleanup (catchHandler X e)).terminal = some ⟨"> Error: " ++ e, true⟩ ∧
    (finalCleanup (catchHandler X e)).toasts =
      st.toasts ++ [("Agent Mode Error: " ++ e, "error")] := by
  rw [catchHandler, updateTerminal_of_some _ _ hterm]
  simp [finalCleanup, toast, hc, hto]

/-! ### Concrete environments used by the witnesses and counterexamples -/

/-- A quiescent browser state. -/
def st0 : AppState := ⟨[], none, false, false, none, [], []⟩

/-- A well-formed fenced planner reply. -/
def goodPlanReply : String :=
  "```json\n" ++ "\x7b\"taskA\":\"x\",\"taskB\":\"y\"\x7d" ++ "\n```"

/-- A 200 response whose envelope carries the given candidate text. -/
def okOutcome (s : String) : NetOutcome := .resp true 200 (.ok ⟨none, some s⟩)

/-- Environment where every call succeeds. -/
def envAllOk : Env :=
  { store := fun k => if k = "aura:apikey" then some "KEY" else none
    net := fun i =>
      if i = 0 then okOutcome goodPlanReply
      else if i = 1 then okOutcome "A-out"
      else if i = 2 then okOutcome "B-out"
      else okOutcome "final answer"
    schedule := true
    now := 0 }

/-- Environment with no stored API key. -/
def envNoKey : Env :=
  { store := fun _ => none, net := fun _ => okOutcome "", schedule := true, now := 0 }

/-- Environment whose planner reply is not JSON. -/
def envBadPlan : Env :=
  { envAllOk with net := fun i => if i = 0 then okOutcome "nonsense" else okOutcome "" }

/-- Environment where the call of worker A fails at the network level. -/
def envWorkerFail : Env :=
  { envAllOk with net := fun i =>
      if i = 0 then okOutcome goodPlanReply
      else if i = 1 then .netFail "network down"
      else okOutcome "B-out" }

/-- Environment where the output of worker B ends in a newline. -/
def envTrailB : Env :=
  { envAllOk with net := fun i =>
      if i = 0 then okOutcome goodPlanReply
      else if i = 1 then okOutcome "A-out"
      else if i = 2 then okOutcome ("B-out" ++ "\n")
      else okOutcome "final answer" }

/-- Environment answering 200 whose body is not valid JSON. -/
def envOkBadJson : Env :=
  { store := fun k => if k = "aura:apikey" then some "KEY" else none
    net := fun _ => .resp true 200 (.error "Unexpected token <")
    schedule := true
    now := 0 }

/-- Environment answering 200 with an envelope that has no candidate text. -/
def envRespNoText : Env :=
  { store := fun k => if k = "aura:apikey" then some "KEY" else none
    net := fun _ => .resp true 200 (.ok ⟨none, none⟩)
    schedule := true
    now := 0 }

/-! ### The claims -/

/-- C2: a planner reply holding the JSON object with `taskA = "x"` and
`taskB = "y"` wrapped in ```` ```json ... ``` ```` fence markers has its
fence markers stripped before parsing, and the parsed plan is exactly that
two-field object. -/
theorem c2_fence_strip :
    cleanPlanJson ("```json\n" ++ "\x7b\"taskA\":\"x\",\"taskB\":\"y\"\x7d" ++ "\n```") =
      "\x7b\"taskA\":\"x\",\"taskB\":\"y\"\x7d" ∧
    jsonParse (cleanPlanJson
        ("```json\n" ++ "\x7b\"taskA\":\"x\",\"taskB\":\"y\"\x7d" ++ "\n```")) =
      some (Json.obj [("taskA", Json.str "x"), ("taskB", Json.str "y")]) :=
  ⟨rfl, rfl⟩

/-- C10: a falsy (empty) `userText` returns immediately with no effect: the
state is untouched (no appended message, no disabled submit control, no
terminal bubble) and no network request is issued. -/
theorem c10_empty_input (env : Env) (st : AppState) :
    runAgentMode env st "" = ⟨st, [], none⟩ := by
  simp [runAgentMode]

/-- C8: with an absent or empty stored API key the transport fails with the
missing-credential error and issues no network request, whatever the other
arguments are. -/
theorem c8_missing_credential (env : Env) (iss : List Request)
    (hist : List (String × String)) (nut : Option Json) (img : Option String) (sp mo : String)
    (hk : env.store "aura:apikey" = none ∨ env.store "aura:apikey" = some "") :
    fetchAPIBackground env iss hist nut img sp mo = (.error noApiKeyMsg, iss) := by
  have hke : LS_get env "aura:apikey" "" = "" := by
    rcases hk with h | h <;> simp [LS_get, h]
  exact fetch_eq_noKey env hke iss hist nut img sp mo

theorem c8_witness :
    fetchAPIBackground envNoKey [] [] none none "" "" = (.error noApiKeyMsg, []) :=
  c8_missing_credential envNoKey [] [] none none "" "" (Or.inl rfl)

/-- C9 (counterexample): the claim says the transport throws exactly when
the HTTP response is not ok, but an ok (200) response whose body is not
valid JSON also makes it throw (`await res.json()` rejects outside any
`catch`). -/
theorem c9_counterexample :
    envOkBadJson.net 0 = NetOutcome.resp true 200 (.error "Unexpected token <") ∧
    (fetchAPIBackground envOkBadJson [] [] none none "" "").1 =
      .error "Unexpected token <" :=
  ⟨rfl, rfl⟩

/-- C9 (amended): the transport throws exactly when the response is not ok
or when the body of the ok response fails to parse as JSON; a non-ok response
carries the vendor `error.message` when present and nonempty and the HTTP
status otherwise, and an ok response with a parsed envelope lacking the
first-candidate first text part returns the empty string rather than
throwing. -/
theorem c9_http_errors (env : Env) (iss : List Request) (hist : List (String × String))
    (nut : Option Json) (img : Option String) (sp mo : String)
    (hk : LS_get env "aura:apikey" "" ≠ "") (ok : Bool) (status : Nat)
    (body : Except String RespBody)
    (hnet : env.net iss.length = NetOutcome.resp ok status body) :
    ((∃ e, (fetchAPIBackground env iss hist nut img sp mo).1 = .error e) ↔
      (ok = false ∨ ∃ m, body = .error m)) ∧
    (∀ b, ok = true → body = .ok b →
      (fetchAPIBackground env iss hist nut img sp mo).1 = .ok (b.text.getD "")) ∧
    (∀ b m, ok = false → body = .ok b → b.errMessage = some m → m ≠ "" →
      (fetchAPIBackground env iss hist nut img sp mo).1 = .error m) ∧
    (∀ b, ok = false → body = .ok b → (b.errMessage = none ∨ b.errMessage = some "") →
      (fetchAPIBackground env iss hist nut img sp mo).1 = .error (httpFallback status)) := by
  rw [fetch_eq_key env hk, hnet]
  refine ⟨?_, ?_, ?_, ?_⟩
  · cases ok with
    | false => simp [outcomeRes]
    | true =>
      cases body with
      | error m => simp [outcomeRes]
      | ok b => simp [outcomeRes]
  · rintro b hok hb
    subst hok; subst hb
    simp [outcomeRes]
  · rintro b m hok hb hm hne
    subst hok; subst hb
    simp [outcomeRes, hm, hne]
  · rintro b hok hb hmsg
    subst hok; subst hb
    rcases hmsg with h | h <;> simp [outcomeRes, h]

theorem c9_witness :
    (fetchAPIBackground envRespNoText [] [] none none "" "").1 = .ok "" :=
  (c9_http_errors envRespNoText [] [] none none "" "" (by decide) true 200
    (.ok ⟨none, none⟩) rfl).2.1 ⟨none, none⟩ rfl rfl

/-- The C6 conclusion, established once for an arbitrary failed-run result. -/
theorem failGoal (env : Env) (st : AppState) (ut : String) (X : AppState) (e0 tx : String)
    (iss : List Request)
    (hc : X.chat = st.chat ++ [mkUserMsg env st ut])
    (hterm : X.terminal = some ⟨tx, false⟩)
    (hto : X.toasts = st.toasts) :
    (RunResult.mk (finalCleanup (catchHandler X e0)) iss (some e0)).state.isStreaming = false ∧
    (RunResult.mk (finalCleanup (catchHandler X e0)) iss
      (some e0)).state.sendBtnDisabled = false ∧
    (∀ e, (RunResult.mk (finalCleanup (catchHandler X e0)) iss (some e0)).caught = some e →
      (RunResult.mk (finalCleanup (catchHandler X e0)) iss (some e0)).state.chat =
        st.chat ++ [mkUserMsg env st ut] ∧
      (RunResult.mk (finalCleanup (catchHandler X e0)) iss (some e0)).state.terminal =
        some ⟨"> Error: " ++ e, true⟩ ∧
      (RunResult.mk (finalCleanup (catchHandler X e0)) iss (some e0)).state.toasts =
        st.toasts ++ [("Agent Mode Error: " ++ e, "error")]) := by
  obtain ⟨f1, f2, f3, f4, f5⟩ := failShape env st ut X e0 tx hc hterm hto
  exact ⟨f1, f2, fun e he => by injection he with h; subst h; exact ⟨f3, f4, f5⟩⟩

/-- C6: if any phase throws, the chat keeps only the triggering user turn
(no assistant turn), the terminal bubble is still present showing the error
text in the error treatment, a toast is shown; and on success and failure
alike the streaming flag and submit control are restored by the final
cleanup. -/
theorem c6_failure_handling (env : Env) (st : AppState) (ut : String) (hut : ut ≠ "") :
    (runAgentMode env st ut).state.isStreaming = false ∧
    (runAgentMode env st ut).state.sendBtnDisabled = false ∧
    (∀ e, (runAgentMode env st ut).caught = some e →
      (runAgentMode env st ut).state.chat = st.chat ++ [mkUserMsg env st ut] ∧
      (runAgentMode env st ut).state.terminal = some ⟨"> Error: " ++ e, true⟩ ∧
      (runAgentMode env st ut).state.toasts =
        st.toasts ++ [("Agent Mode Error: " ++ e, "error")]) := by
  by_cases hk : LS_get env "aura:apikey" "" = ""
  · rw [run_eq_noKey env st ut hut hk]
    obtain ⟨h1, h2, h3, -⟩ := stAnalyzeOf_fields env st ut
    exact failGoal env st ut _ _ _ _ h1 h2 h3
  · cases h0 : outcomeRes (env.net 0) with
    | error e0 =>
      rw [run_eq_planFail env st ut hut hk e0 h0]
      obtain ⟨h1, h2, h3, -⟩ := stAnalyzeOf_fields env st ut
      exact failGoal env st ut _ _ _ _ h1 h2 h3
    | ok r =>
      cases hp : jsonParse (cleanPlanJson r) with
      | none =>
        rw [run_eq_parseFail env st ut hut hk r h0 hp]
        obtain ⟨h1, h2, h3, -⟩ := stAnalyzeOf_fields env st ut
        exact failGoal env st ut _ _ _ _ h1 h2 h3
      | some t =>
        cases hv : planShapeOk t with
        | false =>
          rw [run_eq_invalid env st ut hut hk r t h0 hp hv]
          obtain ⟨h1, h2, h3, -⟩ := stAnalyzeOf_fields env st ut
          exact failGoal env st ut _ _ _ _ h1 h2 h3
        | true =>
          cases hw : promiseAll2 env.schedule (outcomeRes (env.net 1))
              (outcomeRes (env.net 2)) with
          | error e0 =>
            rw [run_eq_workerFail env st ut hut hk r t h0 hp hv e0 hw]
            obtain ⟨h1, h2, h3, -⟩ := stDispatchOf_fields env st ut
            exact failGoal env st ut _ _ _ _ h1 h2 h3
          | ok p =>
            obtain ⟨rA, rB⟩ := p
            cases h3 : outcomeRes (env.net 3) with
            | error e0 =>
              rw [run_eq_synthFail env st ut hut hk r t h0 hp hv rA rB hw e0 h3]
              obtain ⟨h1, h2, h3', -⟩ := stSynthOf_fields env st ut
              exact failGoal env st ut _ _ _ _ h1 h2 h3'
            | ok fin =>
              rw [run_eq_success env st ut hut hk r t h0 hp hv rA rB hw fin h3]
              exact ⟨rfl, rfl, fun e he => absurd he (by simp)⟩

theorem c6_witness :
    (runAgentMode envNoKey st0 "hi").state.isStreaming = false ∧
    (runAgentMode envNoKey st0 "hi").state.sendBtnDisabled = false ∧
    (∀ e, (runAgentMode envNoKey st0 "hi").caught = some e →
      (runAgentMode envNoKey st0 "hi").state.chat =
        st0.chat ++ [mkUserMsg envNoKey st0 "hi"] ∧
      (runAgentMode envNoKey st0 "hi").state.terminal = some ⟨"> Error: " ++ e, true⟩ ∧
      (runAgentMode envNoKey st0 "hi").state.toasts =
        st0.toasts ++ [("Agent Mode Error: " ++ e, "error")]) :=
  c6_failure_handling envNoKey st0 "hi" (by decide)

/-- C7: on a successful run the terminal bubble is removed, the appended
turn has role "assistant" with content exactly the text extracted from the
synthesizer call, and in the event trace the removal precedes the final
append — the status indicator and the final answer never coexist. -/
theorem c7_success_finalize (env : Env) (st : AppState) (ut : String) (hut : ut ≠ "")
    (hsucc : (runAgentMode env st ut).caught = none) :
    ∃ fin, outcomeRes (env.net 3) = .ok fin ∧
      (runAgentMode env st ut).state.terminal = none ∧
      (runAgentMode env st ut).state.chat =
        st.chat ++ [mkUserMsg env st ut, ⟨"assistant", fin, env.now, none, none⟩] ∧
      (runAgentMode env st ut).state.events = st.events ++
        [.append (mkUserMsg env st ut), .createTerm,
         .updTerm "> Initializing S.I.L.K. Agent Mode..." false,
         .updTerm "> Orchestrator analyzing request..." false,
         .updTerm "> Orchestrator generated tasks. Dispatching to parallel workers..." false,
         .updTerm "> Workers A and B have completed execution. Synthesizing final output..."
           false,
         .removeTerm,
         .append ⟨"assistant", fin, env.now, none, none⟩] := by
  by_cases hk : LS_get env "aura:apikey" "" = ""
  · rw [run_eq_noKey env st ut hut hk] at hsucc
    exact absurd hsucc (by simp)
  · cases h0 : outcomeRes (env.net 0) with
    | error e0 =>
      rw [run_eq_planFail env st ut hut hk e0 h0] at hsucc
      exact absurd hsucc (by simp)
    | ok r =>
      cases hp : jsonParse (cleanPlanJson r) with
      | none =>
        rw [run_eq_parseFail env st ut hut hk r h0 hp] at hsucc
        exact absurd hsucc (by simp)
      | some t =>
        cases hv : planShapeOk t with
        | false =>
          rw [run_eq_invalid env st ut hut hk r t h0 hp hv] at hsucc
          exact absurd hsucc (by simp)
        | true =>
          cases hw : promiseAll2 env.schedule (outcomeRes (env.net 1))
              (outcomeRes (env.net 2)) with
          | error e0 =>
            rw [run_eq_workerFail env st ut hut hk r t h0 hp hv e0 hw] at hsucc
            exact absurd hsucc (by simp)
          | ok p =>
            obtain ⟨rA, rB⟩ := p
            cases h3 : outcomeRes (env.net 3) with
            | error e0 =>
              rw [run_eq_synthFail env st ut hut hk r t h0 hp hv rA rB hw e0 h3] at hsucc
              exact absurd hsucc (by simp)
            | ok fin =>
              rw [run_eq_success env st ut hut hk r t h0 hp hv rA rB hw fin h3]
              obtain ⟨h1, h2, -, h4⟩ := stSynthOf_fields env st ut
              refine ⟨fin, rfl, ?_, ?_, ?_⟩
              · rw [removeTerminal_of_some _ _ h2]
                simp [finalCleanup, appendMessage]
              · rw [removeTerminal_of_some _ _ h2]
                simp [finalCleanup, appendMessage, h1]
              · rw [removeTerminal_of_some _ _ h2]
                simp [finalCleanup, appendMessage, h4]

/-- The text part of the current (last) turn of a request. -/
def currentTurnText (r : Request) : Option String :=
  match r.contents.getLast? with
  | some c =>
    match c.parts.head? with
    | some (Part.text t) => some t
    | _ => none
  | none => none

theorem allWs_dropWhile (u l : List Char) (hu : ∀ w ∈ u, jsWsChar w = true) :
    List.dropWhile jsWsChar (u ++ l) = List.dropWhile jsWsChar l := by
  induction u with
  | nil => rfl
  | cons a us ih =>
    rw [List.cons_append, List.dropWhile_cons, if_pos (hu a (List.mem_cons_self a us))]
    exact ih (fun w hw => hu w (List.mem_cons_of_mem a hw))

theorem trimRightL_eq (Y : List Char) (c : Char) (hc : jsWsChar c = false) (u : List Char)
    (hu : ∀ w ∈ u, jsWsChar w = true) :
    trimRightL ((Y ++ [c]) ++ u) = Y ++ [c] := by
  unfold trimRightL
  have h1 : ((Y ++ [c]) ++ u).reverse = u.reverse ++ (c :: Y.reverse) := by
    simp [List.reverse_append]
  rw [h1, allWs_dropWhile u.reverse _ (fun w hw => hu w (List.mem_reverse.mp hw))]
  rw [List.dropWhile_cons, if_neg (by simp [hc])]
  simp

theorem strExt (a b : String) (h : a.data = b.data) : a = b := by
  cases a with
  | mk da => cases b with
    | mk db => exact congrArg String.mk h

/-- When the output of worker B is nonempty and ends in a non-whitespace
character, the trim in the synthesis template removes exactly the literal
leading newline and trailing indentation, leaving both outputs verbatim in
A-then-B order. -/
theorem combineWorker_eq (rA rB : String)
    (hBtail : ∃ l c, rB.data = l ++ [c] ∧ jsWsChar c = false) :
    combineWorker rA rB =
      "--- WORKER A OUTPUT ---\n" ++ rA ++ "\n\n--- WORKER B OUTPUT ---\n" ++ rB := by
  obtain ⟨l, c, hl, hc⟩ := hBtail
  have happ : ∀ x y : String, (x ++ y).data = x.data ++ y.data := fun _ _ => rfl
  apply strExt
  show trimRightL (trimLeftL
      ("\n--- WORKER A OUTPUT ---\n" ++ rA ++ "\n\n--- WORKER B OUTPUT ---\n" ++ rB ++
        "\n    ").data) = _
  have h1 : ("\n--- WORKER A OUTPUT ---\n" ++ rA ++ "\n\n--- WORKER B OUTPUT ---\n" ++ rB ++
      "\n    ").data =
      '\n' :: '-' :: (("-- WORKER A OUTPUT ---\n" : String).data ++ rA.data ++
        ("\n\n--- WORKER B OUTPUT ---\n" : String).data ++ rB.data ++
        ['\n', ' ', ' ', ' ', ' ']) := by
    simp only [happ]
    simp [List.append_assoc]
  rw [h1]
  unfold trimLeftL
  rw [List.dropWhile_cons, if_pos (by decide : jsWsChar '\n' = true),
    List.dropWhile_cons, if_neg (by decide : ¬jsWsChar '-' = true)]
  have h2 : ('-' :: (("-- WORKER A OUTPUT ---\n" : String).data ++ rA.data ++
      ("\n\n--- WORKER B OUTPUT ---\n" : String).data ++ rB.data ++
      ['\n', ' ', ' ', ' ', ' '])) =
      (('-' :: ("-- WORKER A OUTPUT ---\n" : String).data ++ rA.data ++
        ("\n\n--- WORKER B OUTPUT ---\n" : String).data ++ l) ++ [c]) ++
      ['\n', ' ', ' ', ' ', ' '] := by
    simp [hl, List.append_assoc]
  rw [h2, trimRightL_eq _ c hc _ (by decide)]
  simp only [happ, hl]
  simp [List.append_assoc]

/-- C4 (counterexample): the claim promises the synthesis input contains
both worker outputs verbatim, but a worker-B output with trailing
whitespace (here `"B-out\n"`) is trimmed, so the synthesis current-turn
text does not contain it verbatim. -/
theorem c4_counterexample :
    ((runAgentMode envTrailB st0 "u").issued.get? 3).map currentTurnText =
      some (some "--- WORKER A OUTPUT ---\nA-out\n\n--- WORKER B OUTPUT ---\nB-out") ∧
    containsSeq ("B-out" ++ "\n").data
      "--- WORKER A OUTPUT ---\nA-out\n\n--- WORKER B OUTPUT ---\nB-out".data = false := by
  exact ⟨by decide, by decide⟩

/-- C4 (amended): when both worker calls succeed, the current-turn text of
the synthesizer call is the labelled two-section payload with the output
of worker A first and the output of worker B second, independent of which
worker promise settled first; the output of worker A appears verbatim, and
the output of worker B appears verbatim provided it does not end in whitespace (otherwise its
trailing whitespace is removed by the final trim). -/
theorem c4_synth_sections (env : Env) (st : AppState) (ut : String) (hut : ut ≠ "")
    (hk : LS_get env "aura:apikey" "" ≠ "") (r : String) (t : Json)
    (h0 : outcomeRes (env.net 0) = .ok r) (hp : jsonParse (cleanPlanJson r) = some t)
    (hv : planShapeOk t = true) (rA rB : String)
    (hA : outcomeRes (env.net 1) = .ok rA) (hB : outcomeRes (env.net 2) = .ok rB)
    (hBtail : ∃ l c, rB.data = l ++ [c] ∧ jsWsChar c = false) :
    (runAgentMode env st ut).issued.get? 3 = some (synthReqOf env st ut rA rB) ∧
    currentTurnText (synthReqOf env st ut rA rB) =
      some ("--- WORKER A OUTPUT ---\n" ++ rA ++ "\n\n--- WORKER B OUTPUT ---\n" ++ rB) := by
  have hw : promiseAll2 env.schedule (outcomeRes (env.net 1)) (outcomeRes (env.net 2)) =
      .ok (rA, rB) := by rw [hA, hB]; rfl
  constructor
  · cases h3 : outcomeRes (env.net 3) with
    | error e0 => rw [run_eq_synthFail env st ut hut hk r t h0 hp hv rA rB hw e0 h3]; rfl
    | ok fin => rw [run_eq_success env st ut hut hk r t h0 hp hv rA rB hw fin h3]; rfl
  · rw [show currentTurnText (synthReqOf env st ut rA rB) =
        some (combineWorker rA rB) from ?_, combineWorker_eq rA rB hBtail]
    · have hsp : synthesizerPrompt ≠ "" := by decide
      have hcont : (synthReqOf env st ut rA rB).contents =
          (⟨"user", [Part.text ("[System Instructions] " ++ synthesizerPrompt)]⟩ ::
            ⟨"model", [Part.text "Understood."]⟩ ::
            (histOf env st ut).map (fun m =>
              (⟨if m.1 = "assistant" then "model" else "user", [Part.text m.2]⟩ : Content))) ++
          [⟨"user", [Part.text (safeTextOf (some (Json.str (combineWorker rA rB))))]⟩] := by
        simp [synthReqOf, mkRequest, personaOf, hsp, mkParts]
      unfold currentTurnText
      rw [hcont, List.getLast?_concat]
      by_cases hs : combineWorker rA rB = "" <;>
        simp [safeTextOf, jsTruthy, jsToString, hs]

/-- C4 amended-claim witness at a concrete successful run. -/
theorem c4_witness :
    (runAgentMode envAllOk st0 "hi").issued.get? 3 =
      some (synthReqOf envAllOk st0 "hi" "A-out" "B-out") ∧
    currentTurnText (synthReqOf envAllOk st0 "hi" "A-out" "B-out") =
      some ("--- WORKER A OUTPUT ---\n" ++ "A-out" ++ "\n\n--- WORKER B OUTPUT ---\n" ++
        "B-out") :=
  c4_synth_sections envAllOk st0 "hi" (by decide) (by decide) goodPlanReply
    (Json.obj [("taskA", Json.str "x"), ("taskB", Json.str "y")]) rfl rfl rfl
    "A-out" "B-out" rfl rfl ⟨['B', '-', 'o', 'u'], 't', rfl, rfl⟩

/-- A missing field or an empty-string field of the parsed plan. -/
def missingOrEmpty (t : Json) (k : String) : Prop :=
  jsGet t k = none ∨ jsGet t k = some (Json.str "")

theorem missingOrEmpty_not_truthy (t : Json) (k : String) (h : missingOrEmpty t k) :
    jsTruthyOpt (jsGet t k) = false := by
  rcases h with h | h <;> simp [h, jsTruthyOpt, jsTruthy]

theorem shape_false_of_bad (t : Json)
    (h : missingOrEmpty t "taskA" ∨ missingOrEmpty t "taskB") :
    planShapeOk t = false := by
  rcases h with h | h <;>
    simp [planShapeOk, missingOrEmpty_not_truthy _ _ h]

/-- C3: an unparsable planner reply, or a parsed plan missing `taskA` or
`taskB` or carrying an empty one, fails the run with the planning error
and issues no worker call (the planner request stays the only one). -/
theorem c3_planning_error (env : Env) (st : AppState) (ut : String) (hut : ut ≠ "")
    (hk : LS_get env "aura:apikey" "" ≠ "") (r : String)
    (h0 : outcomeRes (env.net 0) = .ok r)
    (hbad : jsonParse (cleanPlanJson r) = none ∨
      ∃ t, jsonParse (cleanPlanJson r) = some t ∧
        (missingOrEmpty t "taskA" ∨ missingOrEmpty t "taskB")) :
    (runAgentMode env st ut).issued = [planReqOf env st ut] ∧
    ((runAgentMode env st ut).caught = some planParseFailMsg ∨
     (runAgentMode env st ut).caught = some planMissingMsg) := by
  rcases hbad with hp | ⟨t, hp, hbad2⟩
  · rw [run_eq_parseFail env st ut hut hk r h0 hp]
    exact ⟨rfl, Or.inl rfl⟩
  · rw [run_eq_invalid env st ut hut hk r t h0 hp (shape_false_of_bad t hbad2)]
    exact ⟨rfl, Or.inr rfl⟩

theorem c3_witness :
    (runAgentMode envBadPlan st0 "hi").issued = [planReqOf envBadPlan st0 "hi"] ∧
    ((runAgentMode envBadPlan st0 "hi").caught = some planParseFailMsg ∨
     (runAgentMode envBadPlan st0 "hi").caught = some planMissingMsg) :=
  c3_planning_error envBadPlan st0 "hi" (by decide) (by decide) "nonsense" rfl (Or.inl rfl)

/-- The fetch for this network outcome would throw. -/
def fetchFails (o : NetOutcome) : Prop := ∃ e, outcomeRes o = .error e

/-- The request opens with the synthetic persona turn for prompt `p`. -/
def hasPersona (r : Request) (p : String) : Prop :=
  r.contents.head? = some ⟨"user", [Part.text ("[System Instructions] " ++ p)]⟩

theorem mkRequest_hasPersona (env : Env) (hist : List (String × String)) (nut : Option Json)
    (img : Option String) (sp mo : String) (hsp : sp ≠ "") :
    hasPersona (mkRequest env hist nut img sp mo) sp := by
  simp [hasPersona, mkRequest, personaOf, hsp]

theorem promiseAll2_ok (sch : Bool) (a b : Except String String) (p : String × String)
    (h : promiseAll2 sch a b = .ok p) : a = .ok p.1 ∧ b = .ok p.2 := by
  cases a with
  | error ea => cases b <;> simp [promiseAll2] at h
  | ok va =>
    cases b with
    | error eb => simp [promiseAll2] at h
    | ok vb =>
      simp [promiseAll2, Prod.ext_iff] at h
      exact ⟨by rw [h.1], by rw [h.2]⟩

/-- C1: the phases run strictly in order — the issued-request log is always
a planner-prefix of planner, worker A, worker B, synthesizer — and once the
workers were dispatched, a failing worker call means the synthesis request
is never issued and no final answer is appended, whatever the other
other outcome. -/
theorem c1_phase_order (env : Env) (st : AppState) (ut : String) (hut : ut ≠ "") :
    ((runAgentMode env st ut).issued = [] ∨
     (∃ p, (runAgentMode env st ut).issued = [p] ∧ hasPersona p orchestratorPrompt) ∨
     (∃ p a b, (runAgentMode env st ut).issued = [p, a, b] ∧
       hasPersona p orchestratorPrompt ∧ hasPersona a workerSystemPrompt ∧
       hasPersona b workerSystemPrompt) ∨
     (∃ p a b s, (runAgentMode env st ut).issued = [p, a, b, s] ∧
       hasPersona p orchestratorPrompt ∧ hasPersona a workerSystemPrompt ∧
       hasPersona b workerSystemPrompt ∧ hasPersona s synthesizerPrompt)) ∧
    ((fetchFails (env.net 1) ∨ fetchFails (env.net 2)) →
      3 ≤ (runAgentMode env st ut).issued.length →
      (runAgentMode env st ut).issued.length = 3 ∧
      (runAgentMode env st ut).caught.isSome = true ∧
      (runAgentMode env st ut).state.chat = st.chat ++ [mkUserMsg env st ut]) := by
  have hop : orchestratorPrompt ≠ "" := by decide
  have hwp : workerSystemPrompt ≠ "" := by decide
  have hsp : synthesizerPrompt ≠ "" := by decide
  by_cases hk : LS_get env "aura:apikey" "" = ""
  · rw [run_eq_noKey env st ut hut hk]
    exact ⟨Or.inl rfl, fun _ h => absurd h (by simp)⟩
  · cases h0 : outcomeRes (env.net 0) with
    | error e0 =>
      rw [run_eq_planFail env st ut hut hk e0 h0]
      exact ⟨Or.inr (Or.inl ⟨_, rfl, mkRequest_hasPersona _ _ _ _ _ _ hop⟩),
        fun _ h => absurd h (by simp)⟩
    | ok r =>
      cases hp : jsonParse (cleanPlanJson r) with
      | none =>
        rw [run_eq_parseFail env st ut hut hk r h0 hp]
        exact ⟨Or.inr (Or.inl ⟨_, rfl, mkRequest_hasPersona _ _ _ _ _ _ hop⟩),
          fun _ h => absurd h (by simp)⟩
      | some t =>
        cases hv : planShapeOk t with
        | false =>
          rw [run_eq_invalid env st ut hut hk r t h0 hp hv]
          exact ⟨Or.inr (Or.inl ⟨_, rfl, mkRequest_hasPersona _ _ _ _ _ _ hop⟩),
            fun _ h => absurd h (by simp)⟩
        | true =>
          cases hw : promiseAll2 env.schedule (outcomeRes (env.net 1))
              (outcomeRes (env.net 2)) with
          | error e0 =>
            rw [run_eq_workerFail env st ut hut hk r t h0 hp hv e0 hw]
            refine ⟨Or.inr (Or.inr (Or.inl ⟨_, _, _, rfl,
              mkRequest_hasPersona _ _ _ _ _ _ hop, mkRequest_hasPersona _ _ _ _ _ _ hwp,
              mkRequest_hasPersona _ _ _ _ _ _ hwp⟩)), fun _ _ => ⟨rfl, rfl, ?_⟩⟩
            obtain ⟨h1, h2, h3, -⟩ := stDispatchOf_fields env st ut
            exact (failShape env st ut _ e0 _ h1 h2 h3).2.2.1
          | ok p =>
            obtain ⟨rA, rB⟩ := p
            have hnofail : ¬(fetchFails (env.net 1) ∨ fetchFails (env.net 2)) := by
              obtain ⟨ha, hb⟩ := promiseAll2_ok _ _ _ _ hw
              rintro (⟨e, he⟩ | ⟨e, he⟩)
              · rw [ha] at he; cases he
              · rw [hb] at he; cases he
            cases h3 : outcomeRes (env.net 3) with
            | error e0 =>
              rw [run_eq_synthFail env st ut hut hk r t h0 hp hv rA rB hw e0 h3]
              exact ⟨Or.inr (Or.inr (Or.inr ⟨_, _, _, _, rfl,
                mkRequest_hasPersona _ _ _ _ _ _ hop, mkRequest_hasPersona _ _ _ _ _ _ hwp,
                mkRequest_hasPersona _ _ _ _ _ _ hwp,
                mkRequest_hasPersona _ _ _ _ _ _ hsp⟩)),
                fun hf _ => absurd hf hnofail⟩
            | ok fin =>
              rw [run_eq_success env st ut hut hk r t h0 hp hv rA rB hw fin h3]
              exact ⟨Or.inr (Or.inr (Or.inr ⟨_, _, _, _, rfl,
                mkRequest_hasPersona _ _ _ _ _ _ hop, mkRequest_hasPersona _ _ _ _ _ _ hwp,
                mkRequest_hasPersona _ _ _ _ _ _ hwp,
                mkRequest_hasPersona _ _ _ _ _ _ hsp⟩)),
                fun hf _ => absurd hf hnofail⟩

theorem c1_witness :
    (runAgentMode envWorkerFail st0 "hi").issued.length = 3 ∧
    (runAgentMode envWorkerFail st0 "hi").caught.isSome = true ∧
    (runAgentMode envWorkerFail st0 "hi").state.chat =
      st0.chat ++ [mkUserMsg envWorkerFail st0 "hi"] :=
  (c1_phase_order envWorkerFail st0 "hi" (by decide)).2
    (Or.inl ⟨"network down", rfl⟩) (by decide)

/-- No inline-image part appears anywhere in the request. -/
def noInlineData (r : Request) : Prop :=
  ∀ c ∈ r.contents, ∀ p ∈ c.parts, ∀ m d, p ≠ Part.inlineData m d

/-- A worker request: the worker persona followed by exactly one user turn
holding a single text part — no prior history and no image. -/
def workerReqClean (r : Request) : Prop :=
  ∃ τ, r.contents =
    [⟨"user", [Part.text ("[System Instructions] " ++ workerSystemPrompt)]⟩,
     ⟨"model", [Part.text "Understood."]⟩,
     ⟨"user", [Part.text τ]⟩]

theorem workerReq_clean (env : Env) (t : Json) (k : String) :
    workerReqClean (mkRequest env [] (jsGet t k) none workerSystemPrompt "gemma-3-27b-it") := by
  refine ⟨safeTextOf (jsGet t k), ?_⟩
  have hwp : workerSystemPrompt ≠ "" := by decide
  simp [mkRequest, personaOf, mkParts, hwp]

theorem synthReq_noInline (env : Env) (st : AppState) (ut : String) (rA rB : String) :
    noInlineData (synthReqOf env st ut rA rB) := by
  intro c hc p hp m d
  have hsp : synthesizerPrompt ≠ "" := by decide
  simp only [synthReqOf, mkRequest, personaOf, mkParts, if_pos hsp, List.cons_append,
    List.nil_append, List.mem_cons, List.mem_append, List.mem_map] at hc
  rcases hc with rfl | rfl | ⟨⟨mr, hm⟩ | hone⟩
  · simp at hp; subst hp; simp
  · simp at hp; subst hp; simp
  · obtain ⟨-, rfl⟩ := hm
    simp at hp; subst hp; simp
  · simp at hone; subst hone
    simp at hp; subst hp; simp

/-- C5: every worker call carries no prior conversation history — only its
single task string — and the inline image of the originating user turn is
never part of the worker requests or the synthesizer request. -/
theorem c5_context_isolation (env : Env) (st : AppState) (ut : String) (hut : ut ≠ "") :
    (∀ r, (runAgentMode env st ut).issued.get? 1 = some r → workerReqClean r) ∧
    (∀ r, (runAgentMode env st ut).issued.get? 2 = some r → workerReqClean r) ∧
    (∀ r, (runAgentMode env st ut).issued.get? 3 = some r → noInlineData r) := by
  by_cases hk : LS_get env "aura:apikey" "" = ""
  · rw [run_eq_noKey env st ut hut hk]
    exact ⟨(fun r h => nomatch h), (fun r h => nomatch h), (fun r h => nomatch h)⟩
  · cases h0 : outcomeRes (env.net 0) with
    | error e0 =>
      rw [run_eq_planFail env st ut hut hk e0 h0]
      exact ⟨(fun r h => nomatch h), (fun r h => nomatch h), (fun r h => nomatch h)⟩
    | ok r =>
      cases hp : jsonParse (cleanPlanJson r) with
      | none =>
        rw [run_eq_parseFail env st ut hut hk r h0 hp]
        exact ⟨(fun r h => nomatch h), (fun r h => nomatch h), (fun r h => nomatch h)⟩
      | some t =>
        cases hv : planShapeOk t with
        | false =>
          rw [run_eq_invalid env st ut hut hk r t h0 hp hv]
          exact ⟨(fun r h => nomatch h), (fun r h => nomatch h), (fun r h => nomatch h)⟩
        | true =>
          cases hw : promiseAll2 env.schedule (outcomeRes (env.net 1))
              (outcomeRes (env.net 2)) with
          | error e0 =>
            rw [run_eq_workerFail env st ut hut hk r t h0 hp hv e0 hw]
            refine ⟨fun q hq => ?_, fun q hq => ?_, fun q hq => by cases hq⟩
            · injection hq with hq; subst hq; exact workerReq_clean env t "taskA"
            · injection hq with hq; subst hq; exact workerReq_clean env t "taskB"
          | ok pr =>
            obtain ⟨rA, rB⟩ := pr
            cases h3 : outcomeRes (env.net 3) with
            | error e0 =>
              rw [run_eq_synthFail env st ut hut hk r t h0 hp hv rA rB hw e0 h3]
              refine ⟨fun q hq => ?_, fun q hq => ?_, fun q hq => ?_⟩
              · injection hq with hq; subst hq; exact workerReq_clean env t "taskA"
              · injection hq with hq; subst hq; exact workerReq_clean env t "taskB"
              · injection hq with hq; subst hq; exact synthReq_noInline env st ut rA rB
            | ok fin =>
              rw [run_eq_success env st ut hut hk r t h0 hp hv rA rB hw fin h3]
              refine ⟨fun q hq => ?_, fun q hq => ?_, fun q hq => ?_⟩
              · injection hq with hq; subst hq; exact workerReq_clean env t "taskA"
              · injection hq with hq; subst hq; exact workerReq_clean env t "taskB"
              · injection hq with hq; subst hq; exact synthReq_noInline env st ut rA rB

theorem c5_witness :
    (∀ r, (runAgentMode envAllOk st0 "hi").issued.get? 1 = some r → workerReqClean r) ∧
    (∀ r, (runAgentMode envAllOk st0 "hi").issued.get? 2 = some r → workerReqClean r) ∧
    (∀ r, (runAgentMode envAllOk st0 "hi").issued.get? 3 = some r → noInlineData r) :=
  c5_context_isolation envAllOk st0 "hi" (by decide)

theorem c7_witness :
    ∃ fin, outcomeRes (envAllOk.net 3) = .ok fin ∧
      (runAgentMode envAllOk st0 "hi").state.terminal = none ∧
      (runAgentMode envAllOk st0 "hi").state.chat =
        st0.chat ++ [mkUserMsg envAllOk st0 "hi", ⟨"assistant", fin, envAllOk.now, none, none⟩] ∧
      (runAgentMode envAllOk st0 "hi").state.events = st0.events ++
        [.append (mkUserMsg envAllOk st0 "hi"), .createTerm,
         .updTerm "> Initializing S.I.L.K. Agent Mode..." false,
         .updTerm "> Orchestrator analyzing request..." false,
         .updTerm "> Orchestrator generated tasks. Dispatching to parallel workers..." false,
         .updTerm "> Workers A and B have completed execution. Synthesizing final output..."
           false,
         .removeTerm,
         .append ⟨"assistant", fin, envAllOk.now, none, none⟩] :=
  c7_success_finalize envAllOk st0 "hi" (by decide) (by decide)

end Silk
